import Mathlib

/-!
Verification development for the gilt pallet (src/frame/gilt/src/lib.rs).

Balances, block numbers and account identities are modelled as `Nat`; the
balance type in the source is an unsigned machine integer whose saturating
subtraction coincides with truncated `Nat` subtraction, and none of the
concrete scenarios below come anywhere near the `u128` saturation bound, so
plain `Nat` addition models `saturating_add` on balances faithfully there.
The currency, timing and origin collaborators are external to the pallet:
`total_issuance` and the current block number are passed as explicit
arguments, `reserve` is modelled as succeeding, and the `unreserve`,
`deposit_creating` (mint) and `slash_reserved` calls performed by `thaw`
are recorded in an explicit effects record.
-/

namespace Gilt

/-- Modelled from the spec: the accuracy of the external fixed-point type
`Perquintill` (sp_arithmetic, outside src/): one quintillion parts
represent the proportion 1. -/
def quintill : Nat := 1000000000000000000

/-- Modelled from the spec: `Perquintill * u128` multiplication — widened
multiply of the parts by the integer, then truncating division by the
accuracy (round down). -/
def pqMul (p x : Nat) : Nat := p * x / quintill

/-- Modelled from the spec: `Perquintill::from_rational_approximation` —
the nearest representable fraction at or below n / d, clamped to the
interval from 0 to 1, with a zero denominator guarded to 1. -/
def pqFromRational (n d : Nat) : Nat := min quintill (n * quintill / max d 1)

/-- Modelled from the spec: saturating addition of proportions, clamped
to the representable interval. -/
def pqSatAdd (a b : Nat) : Nat := min (a + b) quintill

/-- Modelled from the spec: saturating subtraction of proportions
(`Nat` subtraction already truncates at zero). -/
def pqSatSub (a b : Nat) : Nat := a - b

/-- A pending bid (`GiltBid` in the source): amount and bidder. -/
structure GiltBid where
  amount : Nat
  who : Nat
deriving DecidableEq, Repr

/-- An active gilt (`ActiveGilt`): proportion (Perquintill parts), original
amount, owner and expiry block. -/
structure ActiveGilt where
  proportion : Nat
  amount : Nat
  who : Nat
  expiry : Nat
deriving DecidableEq, Repr

/-- The global aggregate (`ActiveGiltsTotal`): total frozen funds, total
proportion, monotonic issue counter, and the target proportion. -/
structure ActiveGiltsTotal where
  frozen : Nat
  proportion : Nat
  index : Nat
  target : Nat
deriving DecidableEq, Repr

/-- The pallet configuration constants (`Config` trait in the source). -/
structure Config where
  queueCount : Nat
  maxQueueLen : Nat
  period : Nat
  minFreeze : Nat
  intakePeriod : Nat
  maxIntakeBids : Nat
deriving DecidableEq, Repr

/-- The storage of the pallet.  `queues` holds the `Queues` storage map:
bucket d is stored at list index d - 1, with the list head being the front
of the Vec (newest bid) and the list last element the back (oldest bid,
the one `Vec::pop` removes).  `queueTotals` is the `QueueTotals` vector of
(count, total amount) pairs.  `active` is the `Active` storage map as an
association list from gilt index to gilt; indices issued by `enlarge` are
fresh (the issue counter is monotonic), so appending a fresh key models
`StorageMap::insert`. -/
structure GiltState where
  queues : List (List GiltBid)
  queueTotals : List (Nat × Nat)
  activeTotal : ActiveGiltsTotal
  active : List (Nat × ActiveGilt)
deriving DecidableEq, Repr

/-- Errors of the pallet (`Error` enum in the source). -/
inductive GiltError where
  | DurationTooSmall
  | DurationTooBig
  | AmountTooSmall
  | QueueFull
  | Unknown
  | NotOwner
  | NotExpired
  | NotFound
deriving DecidableEq, Repr

/-- Effects that `thaw` requests from the external currency collaborator:
the amount unreserved to the owner, the amount newly minted to the owner
(`deposit_creating`, fed to `Deficit`), and the amount slashed from the
reserved funds of the owner (`slash_reserved`, fed to `Surplus`). -/
structure ThawEffects where
  unreserved : Nat
  minted : Nat
  slashed : Nat
deriving DecidableEq, Repr

/-- Fresh storage: every map entry at its `ValueQuery` default.  The
`Queues` map defaults to an empty Vec for every key; we materialise the
queueCount buckets that the pallet can ever touch.  `QueueTotals` defaults
to the empty vector (the source has no genesis build in this file). -/
def initState (cfg : Config) : GiltState :=
  { queues := List.replicate cfg.queueCount []
  , queueTotals := []
  , activeTotal := ⟨0, 0, 0, 0⟩
  , active := [] }

/-- `Vec::resize(n, (0, 0))` on the queue totals vector: truncate or pad
with zero entries to length n. -/
def resizeQT (qs : List (Nat × Nat)) (n : Nat) : List (Nat × Nat) :=
  qs.take n ++ List.replicate (n - qs.length) (0, 0)

/-- Write the entry at an index of a list (in-bounds in every reachable
call site, since the callers validate the duration first). -/
def setIdx {α : Type} (l : List α) (i : Nat) (a : α) : List α := l.set i a

/-- Read a queue totals entry.  Every reachable call is in bounds once
`place_bid` has resized the vector; an out-of-bounds read (an index panic
in the source, possible only on states no extrinsic produces) yields the
zero entry here. -/
def getQT (qs : List (Nat × Nat)) (i : Nat) : Nat × Nat := qs.getD i (0, 0)

/-- Read the queue of the bucket stored at list index i. -/
def getQueue (qs : List (List GiltBid)) (i : Nat) : List GiltBid := qs.getD i []

/-- `Pallet::place_bid` (lib.rs lines 197 to 221).  The `ensure_signed`
origin check and the currency `reserve` call are external collaborators;
`reserve` is modelled as succeeding.  Note that the source checks and
updates the queue totals entry at index `queue_count - 1`, not at
`duration - 1`. -/
def place_bid (cfg : Config) (s : GiltState) (who amount duration : Nat) :
    Except GiltError GiltState :=
  let qc := cfg.queueCount
  if duration = 0 then .error .DurationTooSmall
  else if qc < duration then .error .DurationTooBig
  else if amount < cfg.minFreeze then .error .AmountTooSmall
  else
    let qs := resizeQT s.queueTotals qc
    if cfg.maxQueueLen ≤ (getQT qs (qc - 1)).1 then .error .QueueFull
    else
      let entry := getQT qs (qc - 1)
      let qs1 := setIdx qs (qc - 1) (entry.1 + 1, entry.2 + amount)
      let q := getQueue s.queues (duration - 1)
      let queues1 := setIdx s.queues (duration - 1) (⟨amount, who⟩ :: q)
      .ok { s with queueTotals := qs1, queues := queues1 }

/-- `Pallet::retract_bid` (lib.rs lines 225 to 254).  The queue of the
requested duration is scanned for the first structurally equal bid; the
totals entry written afterwards is again the one at `queue_count - 1`.
The currency `unreserve` call is external and unconditional on success. -/
def retract_bid (cfg : Config) (s : GiltState) (who amount duration : Nat) :
    Except GiltError GiltState :=
  let qc := cfg.queueCount
  if duration = 0 then .error .DurationTooSmall
  else if qc < duration then .error .DurationTooBig
  else if amount < cfg.minFreeze then .error .AmountTooSmall
  else
    let bid : GiltBid := ⟨amount, who⟩
    let q := getQueue s.queues (duration - 1)
    match q.findIdx? (fun b => decide (b = bid)) with
    | none => .error .NotFound
    | some pos =>
      let q1 := q.eraseIdx pos
      let queues1 := setIdx s.queues (duration - 1) q1
      let qs := resizeQT s.queueTotals qc
      let entry := getQT qs (qc - 1)
      let qs1 := setIdx qs (qc - 1) (q1.length, entry.2 - amount)
      .ok { s with queues := queues1, queueTotals := qs1 }

/-- `Pallet::set_target` (lib.rs lines 258 to 265); the admin origin check
is an external collaborator. -/
def set_target (s : GiltState) (target : Nat) : GiltState :=
  { s with activeTotal := { s.activeTotal with target := target } }

/-- The effective issuance computation shared verbatim by `on_initialize`
(lines 178 to 181), `thaw` (lines 287 to 290) and `enlarge` (lines 361 to
364): `nongilt = total_issuance - frozen` (saturating) and
`effective = proportion * nongilt + nongilt` (saturating add on u128). -/
def effectiveIssuance (totals : ActiveGiltsTotal) (totalIssuance : Nat) : Nat :=
  let nongilt := totalIssuance - totals.frozen
  pqMul totals.proportion nongilt + nongilt

/-- The value `thaw` computes for a gilt (lib.rs line 291):
`gilt.proportion * effective_issuance`. -/
def giltValue (totals : ActiveGiltsTotal) (gilt : ActiveGilt) (totalIssuance : Nat) : Nat :=
  pqMul gilt.proportion (effectiveIssuance totals totalIssuance)

/-- `Active::get`: first entry of the association list with the given key. -/
def lookupActive (a : List (Nat × ActiveGilt)) (i : Nat) : Option ActiveGilt :=
  (a.find? (fun kv => decide (kv.1 = i))).map Prod.snd

/-- `Active::remove`: drop the entries with the given key. -/
def removeActive (a : List (Nat × ActiveGilt)) (i : Nat) : List (Nat × ActiveGilt) :=
  a.filter (fun kv => decide (kv.1 ≠ i))

/-- `Pallet::thaw` (lib.rs lines 269 to 321).  On success it returns the
updated state and the currency effects requested: with v the recomputed
gilt value, the source unreserves the full amount and mints v - amount
when v exceeds the amount, slashes amount - v and unreserves v when v is
below the amount, and performs no currency operation at all when the two
are equal (both currency calls sit inside the two strict comparison
branches). -/
def thaw (s : GiltState) (who index totalIssuance now : Nat) :
    Except GiltError (GiltState × ThawEffects) :=
  match lookupActive s.active index with
  | none => .error .Unknown
  | some gilt =>
    if gilt.who ≠ who then .error .NotOwner
    else if now < gilt.expiry then .error .NotExpired
    else
      let active1 := removeActive s.active index
      let v := giltValue s.activeTotal gilt totalIssuance
      let totals1 : ActiveGiltsTotal :=
        { s.activeTotal with
          frozen := s.activeTotal.frozen - gilt.amount
          proportion := pqSatSub s.activeTotal.proportion gilt.proportion }
      let eff : ThawEffects :=
        if gilt.amount < v then ⟨gilt.amount, v - gilt.amount, 0⟩
        else if v < gilt.amount then ⟨v, 0, gilt.amount - v⟩
        else ⟨0, 0, 0⟩
      .ok ({ s with active := active1, activeTotal := totals1 }, eff)

/-- The mutable loop state of `enlarge`: the storage items it threads plus
the remaining budget and the running count of bids taken. -/
structure EnlargeSt where
  queues : List (List GiltBid)
  qs : List (Nat × Nat)
  totals : ActiveGiltsTotal
  active : List (Nat × ActiveGilt)
  remaining : Nat
  bidsTaken : Nat
deriving DecidableEq, Repr

/-- Body of the `while let Some(mut bid) = q.pop()` loop of `enlarge`
(lib.rs lines 347 to 378): bid0 is the popped (last) element and qrest the
rest of the queue.  If the remaining budget is below the bid amount the
bid is split: the consumed part is the remaining budget and the overflow
is pushed back at the Vec back.  The consumed amount is subtracted from
the bucket totals entry at index idx (= periods - 1), the proportion of
the consumed amount in the effective issuance becomes the gilt proportion,
the global aggregate is updated and the gilt is inserted at the next
index. -/
def enlargeStep (totalIssuance expiry idx : Nat) (bid0 : GiltBid) (qrest : List GiltBid)
    (c : EnlargeSt) : List GiltBid × EnlargeSt :=
  let bid : GiltBid := if c.remaining < bid0.amount then ⟨c.remaining, bid0.who⟩ else bid0
  let q1 := if c.remaining < bid0.amount
            then qrest ++ [⟨bid0.amount - c.remaining, bid0.who⟩]
            else qrest
  let amount := bid.amount
  let remaining1 := c.remaining - amount
  let entry := getQT c.qs idx
  let qs1 := setIdx c.qs idx (entry.1, entry.2 - bid.amount)
  let proportion := pqFromRational amount (effectiveIssuance c.totals totalIssuance)
  let totals1 : ActiveGiltsTotal :=
    ⟨c.totals.frozen + bid.amount, pqSatAdd c.totals.proportion proportion,
     c.totals.index + 1, c.totals.target⟩
  let active1 := c.active ++ [(c.totals.index, ⟨proportion, amount, bid.who, expiry⟩)]
  (q1, ⟨c.queues, qs1, totals1, active1, remaining1, c.bidsTaken + 1⟩)

/-- The inner bid-consuming loop of `enlarge` over one queue, with fuel
(each continued iteration removes one whole bid from the queue, so the
initial queue length plus one is enough fuel).  After each step the loop
breaks when the remaining budget is zero or the bids taken reached
max_bids. -/
def enlargeInner (totalIssuance expiry idx maxBids : Nat) :
    Nat → List GiltBid → EnlargeSt → List GiltBid × EnlargeSt
  | 0, q, c => (q, c)
  | fuel + 1, q, c =>
    match q.getLast? with
    | none => (q, c)
    | some bid0 =>
      let r := enlargeStep totalIssuance expiry idx bid0 q.dropLast c
      if r.2.remaining = 0 ∨ r.2.bidsTaken = maxBids then r
      else enlargeInner totalIssuance expiry idx maxBids fuel r.1 r.2

/-- The outer bucket loop of `enlarge` (lib.rs lines 340 to 389): periods
runs from the longest duration down to 1; a bucket whose recorded count is
zero is skipped by `continue` (which also skips the break check); after a
processed bucket the recorded count is overwritten with the new queue
length, and the loop breaks when the remaining budget is zero or the bid
cap is reached. -/
def enlargeOuter (cfg : Config) (totalIssuance now maxBids : Nat) :
    List Nat → EnlargeSt → EnlargeSt
  | [], c => c
  | periods :: rest, c =>
    if (getQT c.qs (periods - 1)).1 = 0 then
      enlargeOuter cfg totalIssuance now maxBids rest c
    else
      let expiry := now + cfg.period * periods
      let q := getQueue c.queues (periods - 1)
      let r := enlargeInner totalIssuance expiry (periods - 1) maxBids (q.length + 1) q c
      let qs1 := setIdx r.2.qs (periods - 1) (r.1.length, (getQT r.2.qs (periods - 1)).2)
      let c2 : EnlargeSt := { r.2 with queues := setIdx r.2.queues (periods - 1) r.1, qs := qs1 }
      if c2.remaining = 0 ∨ c2.bidsTaken = maxBids then c2
      else enlargeOuter cfg totalIssuance now maxBids rest c2

/-- The descending list of durations `(1..=queue_count).rev()`. -/
def periodsDesc (qc : Nat) : List Nat := ((List.range qc).reverse).map (fun i => i + 1)

/-- `Pallet::enlarge` (lib.rs lines 329 to 393): freeze additional funds
from the queues of bids up to the given amount, taking at most max_bids
bids; returns the updated state and the number of bids taken. -/
def enlarge (cfg : Config) (s : GiltState) (totalIssuance now amount maxBids : Nat) :
    GiltState × Nat :=
  let c0 : EnlargeSt := ⟨s.queues, s.queueTotals, s.activeTotal, s.active, amount, 0⟩
  let c := enlargeOuter cfg totalIssuance now maxBids (periodsDesc cfg.queueCount) c0
  ({ queues := c.queues, queueTotals := c.qs, activeTotal := c.totals, active := c.active },
   c.bidsTaken)

/-- The intake budget computed by the periodic hook (lib.rs lines 175 to
182): `missing = target - proportion` (saturating) times the effective
issuance. -/
def intakeBudget (totals : ActiveGiltsTotal) (totalIssuance : Nat) : Nat :=
  pqMul (pqSatSub totals.target totals.proportion) (effectiveIssuance totals totalIssuance)

/-- The `on_initialize` hook (lib.rs lines 171 to 191): at blocks whose
number is divisible by the intake period, if the proportion is below the
target, `enlarge` is invoked with the intake budget and the configured
maximum intake bids; returns the state and the weight (bids taken). -/
def intakeTick (cfg : Config) (s : GiltState) (n totalIssuance : Nat) : GiltState × Nat :=
  if n % cfg.intakePeriod = 0 then
    if s.activeTotal.proportion < s.activeTotal.target then
      enlarge cfg s totalIssuance n (intakeBudget s.activeTotal totalIssuance) cfg.maxIntakeBids
    else (s, 0)
  else (s, 0)

/-- Sum of the amounts of a list of bids. -/
def sumAmounts (q : List GiltBid) : Nat := (q.map GiltBid.amount).sum

/-- The aggregate-consistency check of one bucket: the recorded totals
entry equals the length and amount sum of the stored queue. -/
def bucketConsistent (s : GiltState) (i : Nat) : Bool :=
  getQT s.queueTotals i = ((getQueue s.queues i).length, sumAmounts (getQueue s.queues i))

/-- Aggregate consistency of all buckets. -/
def queuesConsistent (cfg : Config) (s : GiltState) : Bool :=
  (List.range cfg.queueCount).all (fun i => bucketConsistent s i)

/-- A two-bucket configuration. -/
def cfgA : Config := ⟨2, 10, 3, 5, 1, 10⟩

/-- A one-bucket configuration. -/
def cfg1 : Config := ⟨1, 10, 3, 5, 1, 10⟩

/-- A two-bucket configuration with queue capacity 1. -/
def cfgC7 : Config := ⟨2, 1, 3, 5, 1, 10⟩

/-- A one-bucket configuration with minimum freeze 70. -/
def cfgR : Config := ⟨1, 10, 3, 70, 1, 10⟩

/-- A one-bucket configuration with intake period 2. -/
def cfgC3 : Config := ⟨1, 10, 3, 5, 2, 10⟩

/-- State after bids of 10, 11 and 12 were placed (in that order) into
bucket 1 under cfgA: the bids sit in bucket 1, the totals in the bucket 2
slot. -/
def sC4 : GiltState := ⟨[[⟨12, 3⟩, ⟨11, 2⟩, ⟨10, 1⟩], []], [(0, 0), (3, 33)], ⟨0, 0, 0, 0⟩, []⟩

/-- State after a single bid of 100 was placed into bucket 1 under cfgA. -/
def sC5 : GiltState := ⟨[[⟨100, 1⟩], []], [(0, 0), (1, 100)], ⟨0, 0, 0, 0⟩, []⟩

/-- State after a single bid of 10 was placed into the only bucket under
cfg1. -/
def s8 : GiltState := ⟨[[⟨10, 1⟩]], [(1, 10)], ⟨0, 0, 0, 0⟩, []⟩

/-- State after a single bid of 100 was placed into the only bucket under
cfgR. -/
def sR1 : GiltState := ⟨[[⟨100, 1⟩]], [(1, 100)], ⟨0, 0, 0, 0⟩, []⟩

/-- State after the split: enlarge consumed 40 of the bid of 100 and left
a residual bid of 60 (below the minimum freeze 70 of cfgR). -/
def sR2 : GiltState :=
  ⟨[[⟨60, 1⟩]], [(1, 60)], ⟨40, 40000000000000000, 1, 0⟩,
   [(0, ⟨40000000000000000, 40, 1, 3⟩)]⟩

/-- A gilt holding the whole pool proportion, amount 100, owner 1,
expiring at block 5. -/
def giltB : ActiveGilt := ⟨quintill, 100, 1, 5⟩

/-- State with the single active gilt giltB and matching global
aggregates. -/
def sBreak : GiltState := ⟨[[]], [(0, 0)], ⟨100, quintill, 1, 0⟩, [(0, giltB)]⟩

/-- State with proportion 0.2 and target 0.5 recorded in the global
aggregate, no frozen funds and no bids. -/
def sC3 : GiltState :=
  ⟨[[]], [(0, 0)], ⟨0, 200000000000000000, 0, 500000000000000000⟩, []⟩

/-- State after a bid of 10 was placed into bucket 2 under cfgC7. -/
def sC7 : GiltState := ⟨[[], [⟨10, 1⟩]], [(0, 0), (1, 10)], ⟨0, 0, 0, 0⟩, []⟩

/-- Claim C1: in every reachable state each bucket aggregate equals the
length and amount sum of its bid list.  Refuted by the code: `place_bid`
records the count and amount against the totals slot of the LAST bucket
(index `queue_count - 1`), not the targeted one, so a single bid placed
into bucket 1 of a two-bucket system leaves bucket 1 holding one bid of
10 while its aggregate reads (0, 0) (and the bucket 2 aggregate reads
(1, 10) over an empty queue).  The theorem evaluates the code at that
failing input. -/
theorem C1_aggregate_inconsistency :
    place_bid cfgA (initState cfgA) 7 10 1 =
      .ok ⟨[[⟨10, 7⟩], []], [(0, 0), (1, 10)], ⟨0, 0, 0, 0⟩, []⟩ ∧
    queuesConsistent cfgA ⟨[[⟨10, 7⟩], []], [(0, 0), (1, 10)], ⟨0, 0, 0, 0⟩, []⟩ = false :=
  ⟨rfl, by decide⟩

/-- Claim C2: a breakeven thaw (recomputed value equal to the original
amount) releases exactly the original amount.  Refuted by the code: both
currency branches of `thaw` are strict comparisons, so at value = amount
nothing is unreserved, minted or slashed — the principal stays reserved
although the gilt is removed.  The theorem evaluates the code at a
failing input where the recomputed value is exactly 100 = amount. -/
theorem C2_breakeven_releases_nothing :
    giltValue sBreak.activeTotal giltB 150 = 100 ∧ giltB.amount = 100 ∧
    thaw sBreak 1 0 150 5 =
      .ok (⟨[[]], [(0, 0)], ⟨0, 0, 1, 0⟩, []⟩, ⟨0, 0, 0⟩) :=
  ⟨by decide, rfl, rfl⟩

/-- Claim C3 counterexample: with proportion 0.2, target 0.5, frozen 0 and
total issuance 1000 the claim says the intake budget is exactly 300; the
code computes effective issuance 1200 (nongilt 1000 plus 0.2 of it added
back) and budget 0.3 of 1200 = 360. -/
theorem C3_counterexample : intakeBudget sC3.activeTotal 1000 ≠ 300 := by decide

/-- Claim C3 as amended: at an intake tick with proportion 0.2, target
0.5, frozen 0 and total issuance 1000, the computed intake budget is
exactly 360, and `enlarge` is invoked with exactly that budget and the
configured maximum intake bids. -/
theorem C3_budget_360 :
    intakeBudget sC3.activeTotal 1000 = 360 ∧
    intakeTick cfgC3 sC3 2 1000 = enlarge cfgC3 sC3 1000 2 360 cfgC3.maxIntakeBids :=
  ⟨by decide, rfl⟩

/-- Claim C4: bids placed B1, B2, B3 into any bucket are consumed by a
sufficiently funded `enlarge` in that order.  Refuted by the code for
every bucket other than the longest one: the bucket totals slip in
`place_bid` leaves the recorded count of the targeted bucket at 0, and
`enlarge` skips buckets with recorded count 0, so the three bids placed
into bucket 1 of a two-bucket system are never consumed at all — the call
with budget 33 and cap 3 returns 0 and leaves the bids in place.  The
theorem evaluates the code at that failing input. -/
theorem C4_fifo_unreachable_bucket :
    ((place_bid cfgA (initState cfgA) 1 10 1).bind fun s =>
      (place_bid cfgA s 2 11 1).bind fun s =>
        place_bid cfgA s 3 12 1) = .ok sC4 ∧
    enlarge cfgA sC4 1000 0 33 3 =
      (⟨[[⟨12, 3⟩, ⟨11, 2⟩, ⟨10, 1⟩], []], [(0, 0), (0, 33)], ⟨0, 0, 0, 0⟩, []⟩, 0) :=
  ⟨rfl, by decide⟩

/-- Claim C5: a single bid of 100 in any bucket followed by
`enlarge(40, 10)` yields one commitment of 40 and a residual bid of 60.
Refuted by the code for every bucket other than the longest one, through
the same totals slip as C1: the bid placed into bucket 1 of a two-bucket
system is invisible to `enlarge` (its recorded bucket count is 0), so no
commitment is created and no split happens.  The theorem evaluates the
code at that failing input. -/
theorem C5_split_unreachable_bucket :
    place_bid cfgA (initState cfgA) 1 100 1 = .ok sC5 ∧
    enlarge cfgA sC5 1000 0 40 10 =
      (⟨[[⟨100, 1⟩], []], [(0, 0), (0, 100)], ⟨0, 0, 0, 0⟩, []⟩, 0) :=
  ⟨rfl, by decide⟩

/-- Claim C7: `place_bid` fails with QueueFull exactly when the targeted
bucket is at capacity.  Refuted by the code: the capacity check reads the
recorded count of the LAST bucket slot, so once bucket 2 of a
two-bucket system with capacity 1 holds a bid, placing into the empty
bucket 1 fails QueueFull even though bucket 1 holds no bid at all.  The
theorem evaluates the code at that failing input. -/
theorem C7_queuefull_wrong_bucket :
    place_bid cfgC7 (initState cfgC7) 1 10 2 = .ok sC7 ∧
    getQueue sC7.queues 0 = [] ∧
    place_bid cfgC7 sC7 2 10 1 = .error .QueueFull :=
  ⟨rfl, by decide, rfl⟩

/-- Claim C8 counterexample: with one bid of 10 pending, `enlarge` with
budget 0 and cap 1 does not return 0 leaving everything unchanged — it
pops the bid, reinserts its full amount as a residual, creates a
commitment of amount 0 (incrementing the issue counter) and returns 1. -/
theorem C8_counterexample :
    place_bid cfg1 (initState cfg1) 1 10 1 = .ok s8 ∧
    enlarge cfg1 s8 1000 0 0 1 =
      (⟨[[⟨10, 1⟩]], [(1, 10)], ⟨0, 0, 1, 0⟩, [(0, ⟨0, 0, 1, 3⟩)]⟩, 1) :=
  ⟨rfl, by decide⟩

/-- Claim C9 counterexample: with bid cap 0, `enlarge` still converts a
bid — the stop test compares the running count with the cap by equality
after the first increment, so a cap of 0 never fires.  With one bid of 10
and budget 10 it converts 1 bid, exceeding the claimed bound of 0. -/
theorem C9_counterexample :
    enlarge cfg1 s8 1000 0 10 0 =
      (⟨[[]], [(0, 0)], ⟨10, 10000000000000000, 1, 0⟩,
        [(0, ⟨10000000000000000, 10, 1, 3⟩)]⟩, 1) ∧
    ¬ (enlarge cfg1 s8 1000 0 10 0).2 ≤ 0 := by decide

/-- Claim C6: the two strict settlement branches of `thaw`.  Whenever
`thaw` succeeds and the recomputed value exceeds the original amount, the
full amount is unreserved and exactly the difference is minted to the
owner; whenever the value is below the amount, exactly the difference is
slashed from the reserved funds and exactly the value is unreserved. -/
theorem C6_thaw_branching (s : GiltState) (who index totalIssuance now : Nat)
    (gilt : ActiveGilt) (s2 : GiltState) (eff : ThawEffects)
    (hg : lookupActive s.active index = some gilt)
    (h : thaw s who index totalIssuance now = .ok (s2, eff)) :
    (gilt.amount < giltValue s.activeTotal gilt totalIssuance →
        eff.unreserved = gilt.amount ∧
        eff.minted = giltValue s.activeTotal gilt totalIssuance - gilt.amount ∧
        eff.slashed = 0) ∧
    (giltValue s.activeTotal gilt totalIssuance < gilt.amount →
        eff.slashed = gilt.amount - giltValue s.activeTotal gilt totalIssuance ∧
        eff.unreserved = giltValue s.activeTotal gilt totalIssuance ∧
        eff.minted = 0) := by
  unfold thaw at h
  rw [hg] at h
  dsimp only at h
  by_cases h1 : gilt.who ≠ who
  · rw [if_pos h1] at h; exact absurd h (by simp)
  · rw [if_neg h1] at h
    by_cases h2 : now < gilt.expiry
    · rw [if_pos h2] at h; exact absurd h (by simp)
    · rw [if_neg h2] at h
      simp only [Except.ok.injEq, Prod.mk.injEq] at h
      obtain ⟨-, heff⟩ := h
      subst heff
      constructor
      · intro hv
        rw [if_pos hv]
        exact ⟨rfl, rfl, rfl⟩
      · intro hv
        rw [if_neg (Nat.lt_asymm hv), if_pos hv]
        exact ⟨rfl, rfl, rfl⟩

/-- Instantiation of C6 at a concrete appreciation settlement: the gilt
giltB (amount 100, proportion 1) thawed at total issuance 250 has value
300, so 100 is unreserved and 200 minted, nothing slashed. -/
theorem C6_witness :
    (lookupActive sBreak.active 0 = some giltB ∧
     thaw sBreak 1 0 250 5 = .ok (⟨[[]], [(0, 0)], ⟨0, 0, 1, 0⟩, []⟩, ⟨100, 200, 0⟩)) ∧
    ((giltB.amount < giltValue sBreak.activeTotal giltB 250 →
        (⟨100, 200, 0⟩ : ThawEffects).unreserved = giltB.amount ∧
        (⟨100, 200, 0⟩ : ThawEffects).minted =
          giltValue sBreak.activeTotal giltB 250 - giltB.amount ∧
        (⟨100, 200, 0⟩ : ThawEffects).slashed = 0) ∧
     (giltValue sBreak.activeTotal giltB 250 < giltB.amount →
        (⟨100, 200, 0⟩ : ThawEffects).slashed =
          giltB.amount - giltValue sBreak.activeTotal giltB 250 ∧
        (⟨100, 200, 0⟩ : ThawEffects).unreserved = giltValue sBreak.activeTotal giltB 250 ∧
        (⟨100, 200, 0⟩ : ThawEffects).minted = 0)) :=
  ⟨⟨by decide, rfl⟩,
   C6_thaw_branching sBreak 1 0 250 5 giltB ⟨[[]], [(0, 0)], ⟨0, 0, 1, 0⟩, []⟩
     ⟨100, 200, 0⟩ (by decide) rfl⟩

/-- Overwriting an entry of the totals vector while keeping its second
component leaves the list of second components unchanged. -/
theorem map_snd_setIdx (l : List (Nat × Nat)) (i c : Nat) :
    (setIdx l i (c, (getQT l i).2)).map Prod.snd = l.map Prod.snd := by
  induction l generalizing i with
  | nil => rfl
  | cons a t ih =>
    cases i with
    | zero => simp [setIdx, getQT]
    | succ n =>
      simp only [setIdx, getQT, List.getD_cons_succ, List.set_cons_succ, List.map_cons,
        List.cons.injEq, true_and]
      exact ih n

/-- With zero remaining budget a single loop body execution consumes a bid
amount of 0: the remaining budget stays 0, the bids taken grow by one, the
frozen total and the proportion are unchanged, the amount components of
the totals vector are unchanged, and the one new active gilt has amount
0. -/
theorem enlargeStep_zero (ti expiry idx : Nat) (bid0 : GiltBid) (qrest : List GiltBid)
    (c : EnlargeSt) (h : c.remaining = 0) (hp : c.totals.proportion ≤ quintill) :
    (enlargeStep ti expiry idx bid0 qrest c).2.remaining = 0 ∧
    (enlargeStep ti expiry idx bid0 qrest c).2.bidsTaken = c.bidsTaken + 1 ∧
    (enlargeStep ti expiry idx bid0 qrest c).2.totals.frozen = c.totals.frozen ∧
    (enlargeStep ti expiry idx bid0 qrest c).2.totals.proportion = c.totals.proportion ∧
    (enlargeStep ti expiry idx bid0 qrest c).2.qs.map Prod.snd = c.qs.map Prod.snd ∧
    (∀ kv ∈ (enlargeStep ti expiry idx bid0 qrest c).2.active,
        kv ∈ c.active ∨ kv.2.amount = 0) := by
  have key : (enlargeStep ti expiry idx bid0 qrest c).2 =
      ⟨c.queues, setIdx c.qs idx ((getQT c.qs idx).1, (getQT c.qs idx).2),
       ⟨c.totals.frozen, min c.totals.proportion quintill, c.totals.index + 1,
        c.totals.target⟩,
       c.active ++ [(c.totals.index, ⟨0, 0, bid0.who, expiry⟩)], 0, c.bidsTaken + 1⟩ := by
    by_cases hlt : c.remaining < bid0.amount
    · have hpos : 0 < bid0.amount := by omega
      simp [enlargeStep, hlt, hpos, h, pqFromRational, pqSatAdd]
    · have hb0 : bid0.amount = 0 := by omega
      simp [enlargeStep, hlt, hb0, h, pqFromRational, pqSatAdd]
  rw [key]
  refine ⟨rfl, rfl, rfl, Nat.min_eq_left hp, map_snd_setIdx c.qs idx _, ?_⟩
  intro kv hkv
  simp only [List.mem_append, List.mem_singleton] at hkv
  rcases hkv with hkv | hkv
  · exact Or.inl hkv
  · right; rw [hkv]

/-- With zero remaining budget the inner loop of `enlarge` performs at
most one body execution (the break test fires at once), so the aggregates
are preserved as in the single-step lemma. -/
theorem enlargeInner_zero (ti expiry idx maxBids fuel : Nat) (q : List GiltBid)
    (c : EnlargeSt) (h : c.remaining = 0) (hp : c.totals.proportion ≤ quintill) :
    (enlargeInner ti expiry idx maxBids fuel q c).2.remaining = 0 ∧
    (enlargeInner ti expiry idx maxBids fuel q c).2.bidsTaken ≤ c.bidsTaken + 1 ∧
    (enlargeInner ti expiry idx maxBids fuel q c).2.totals.frozen = c.totals.frozen ∧
    (enlargeInner ti expiry idx maxBids fuel q c).2.totals.proportion = c.totals.proportion ∧
    (enlargeInner ti expiry idx maxBids fuel q c).2.qs.map Prod.snd = c.qs.map Prod.snd ∧
    (∀ kv ∈ (enlargeInner ti expiry idx maxBids fuel q c).2.active,
        kv ∈ c.active ∨ kv.2.amount = 0) := by
  cases fuel with
  | zero =>
    exact ⟨h, Nat.le_succ _, rfl, rfl, rfl, fun kv hkv => Or.inl hkv⟩
  | succ n =>
    rw [enlargeInner]
    cases hq : q.getLast? with
    | none =>
      exact ⟨h, Nat.le_succ _, rfl, rfl, rfl, fun kv hkv => Or.inl hkv⟩
    | some bid0 =>
      have hs := enlargeStep_zero ti expiry idx bid0 q.dropLast c h hp
      dsimp only
      rw [if_pos (Or.inl hs.1)]
      exact ⟨hs.1, Nat.le_of_eq hs.2.1, hs.2.2.1, hs.2.2.2.1, hs.2.2.2.2.1, hs.2.2.2.2.2⟩

/-- With zero remaining budget the outer bucket loop of `enlarge` breaks
right after the first bucket it does not skip, so over the whole loop the
frozen total and proportion are unchanged, at most one bid is taken,
every new gilt has amount 0, and the amount components of the totals
vector are unchanged. -/
theorem enlargeOuter_zero (cfg : Config) (ti now maxBids : Nat) (ps : List Nat) :
    ∀ c : EnlargeSt, c.remaining = 0 → c.bidsTaken = 0 →
      c.totals.proportion ≤ quintill →
      (enlargeOuter cfg ti now maxBids ps c).totals.frozen = c.totals.frozen ∧
      (enlargeOuter cfg ti now maxBids ps c).totals.proportion = c.totals.proportion ∧
      (enlargeOuter cfg ti now maxBids ps c).bidsTaken ≤ 1 ∧
      (enlargeOuter cfg ti now maxBids ps c).qs.map Prod.snd = c.qs.map Prod.snd ∧
      (∀ kv ∈ (enlargeOuter cfg ti now maxBids ps c).active,
          kv ∈ c.active ∨ kv.2.amount = 0) := by
  induction ps with
  | nil =>
    intro c h hb hp
    exact ⟨rfl, rfl, (by omega : c.bidsTaken ≤ 1), rfl, fun kv hkv => Or.inl hkv⟩
  | cons p rest ih =>
    intro c h hb hp
    rw [enlargeOuter]
    by_cases hskip : (getQT c.qs (p - 1)).1 = 0
    · rw [if_pos hskip]; exact ih c h hb hp
    · rw [if_neg hskip]
      have hi := enlargeInner_zero ti (now + cfg.period * p) (p - 1) maxBids
        ((getQueue c.queues (p - 1)).length + 1) (getQueue c.queues (p - 1)) c h hp
      dsimp only
      rw [if_pos (Or.inl hi.1)]
      refine ⟨hi.2.2.1, hi.2.2.2.1, ?_, ?_, hi.2.2.2.2.2⟩
      · exact Nat.le_trans hi.2.1 (by omega)
      · rw [map_snd_setIdx]; exact hi.2.2.2.2.1

/-- Claim C8 as amended: calling `enlarge` with budget 0 and a positive
bid cap moves no funds — the global frozen total and proportion are
unchanged, the amount component of every bucket totals entry is
unchanged, every commitment it creates has amount 0, and at most one bid
is taken (the return value is at most 1; the counterexample shows it can
be 1 rather than the claimed 0, with a zero-amount commitment created). -/
theorem C8_amended (cfg : Config) (s : GiltState) (ti now maxBids : Nat)
    (hmb : 0 < maxBids) (hp : s.activeTotal.proportion ≤ quintill) :
    (enlarge cfg s ti now 0 maxBids).1.activeTotal.frozen = s.activeTotal.frozen ∧
    (enlarge cfg s ti now 0 maxBids).1.activeTotal.proportion = s.activeTotal.proportion ∧
    (enlarge cfg s ti now 0 maxBids).2 ≤ 1 ∧
    (enlarge cfg s ti now 0 maxBids).1.queueTotals.map Prod.snd =
      s.queueTotals.map Prod.snd ∧
    (∀ kv ∈ (enlarge cfg s ti now 0 maxBids).1.active,
        kv ∈ s.active ∨ kv.2.amount = 0) :=
  enlargeOuter_zero cfg ti now maxBids (periodsDesc cfg.queueCount)
    ⟨s.queues, s.queueTotals, s.activeTotal, s.active, 0, 0⟩ rfl rfl hp

/-- Instantiation of C8 as amended at the counterexample state. -/
theorem C8_amended_witness :
    (0 < 1 ∧ s8.activeTotal.proportion ≤ quintill) ∧
    ((enlarge cfg1 s8 1000 0 0 1).1.activeTotal.frozen = s8.activeTotal.frozen ∧
     (enlarge cfg1 s8 1000 0 0 1).1.activeTotal.proportion = s8.activeTotal.proportion ∧
     (enlarge cfg1 s8 1000 0 0 1).2 ≤ 1 ∧
     (enlarge cfg1 s8 1000 0 0 1).1.queueTotals.map Prod.snd =
       s8.queueTotals.map Prod.snd ∧
     (∀ kv ∈ (enlarge cfg1 s8 1000 0 0 1).1.active,
         kv ∈ s8.active ∨ kv.2.amount = 0)) :=
  ⟨⟨by decide, by decide⟩, C8_amended cfg1 s8 1000 0 1 (by decide) (by decide)⟩

/-- Once the running bid count is strictly below the cap, the inner loop
of `enlarge` never pushes it above the cap: the count grows by one per
body execution and the loop breaks at equality. -/
theorem enlargeInner_le_maxBids (ti expiry idx maxBids : Nat) :
    ∀ (fuel : Nat) (q : List GiltBid) (c : EnlargeSt), c.bidsTaken < maxBids →
      (enlargeInner ti expiry idx maxBids fuel q c).2.bidsTaken ≤ maxBids := by
  intro fuel
  induction fuel with
  | zero => intro q c h; exact Nat.le_of_lt h
  | succ n ih =>
    intro q c h
    rw [enlargeInner]
    cases hq : q.getLast? with
    | none => exact Nat.le_of_lt h
    | some bid0 =>
      dsimp only
      have hstep : (enlargeStep ti expiry idx bid0 q.dropLast c).2.bidsTaken =
          c.bidsTaken + 1 := rfl
      by_cases hc : (enlargeStep ti expiry idx bid0 q.dropLast c).2.remaining = 0 ∨
          (enlargeStep ti expiry idx bid0 q.dropLast c).2.bidsTaken = maxBids
      · rw [if_pos hc]; omega
      · rw [if_neg hc]
        apply ih
        push_neg at hc
        omega

/-- Once the running bid count is strictly below the cap, the outer loop
of `enlarge` keeps it at or below the cap. -/
theorem enlargeOuter_le_maxBids (cfg : Config) (ti now maxBids : Nat) (ps : List Nat) :
    ∀ c : EnlargeSt, c.bidsTaken < maxBids →
      (enlargeOuter cfg ti now maxBids ps c).bidsTaken ≤ maxBids := by
  induction ps with
  | nil => intro c h; exact Nat.le_of_lt h
  | cons p rest ih =>
    intro c h
    rw [enlargeOuter]
    by_cases hskip : (getQT c.qs (p - 1)).1 = 0
    · rw [if_pos hskip]; exact ih c h
    · rw [if_neg hskip]
      dsimp only
      have hr := enlargeInner_le_maxBids ti (now + cfg.period * p) (p - 1) maxBids
        ((getQueue c.queues (p - 1)).length + 1) (getQueue c.queues (p - 1)) c h
      by_cases hc : (enlargeInner ti (now + cfg.period * p) (p - 1) maxBids
            ((getQueue c.queues (p - 1)).length + 1) (getQueue c.queues (p - 1))
            c).2.remaining = 0 ∨
          (enlargeInner ti (now + cfg.period * p) (p - 1) maxBids
            ((getQueue c.queues (p - 1)).length + 1) (getQueue c.queues (p - 1))
            c).2.bidsTaken = maxBids
      · rw [if_pos hc]; exact hr
      · rw [if_neg hc]
        apply ih
        push_neg at hc
        exact Nat.lt_of_le_of_ne hr hc.2

/-- Claim C9 as amended: for every budget, every queue state and every
POSITIVE bid cap, `enlarge` takes at most max_bids bids (the
counterexample shows the bound fails for the cap 0, which the equality
stop test never fires for). -/
theorem C9_amended (cfg : Config) (s : GiltState) (ti now amount maxBids : Nat)
    (hmb : 0 < maxBids) :
    (enlarge cfg s ti now amount maxBids).2 ≤ maxBids :=
  enlargeOuter_le_maxBids cfg ti now maxBids (periodsDesc cfg.queueCount)
    ⟨s.queues, s.queueTotals, s.activeTotal, s.active, amount, 0⟩ hmb

/-- Instantiation of C9 as amended at a concrete input. -/
theorem C9_amended_witness : 0 < 2 ∧ (enlarge cfg1 s8 1000 0 10 2).2 ≤ 2 :=
  ⟨by decide, C9_amended cfg1 s8 1000 0 10 2 (by decide)⟩

/-- Claim C10: `retract_bid` rejects every request whose amount is below
the minimum freeze with AmountTooSmall before the queue is searched, for
every state of the queues — in particular a residual bid below the
minimum freeze left behind by a split during `enlarge` can never be
retracted by its owner. -/
theorem C10_subminimum_unretractable (cfg : Config) (s : GiltState)
    (who amount duration : Nat) (hd0 : 0 < duration) (hd1 : duration ≤ cfg.queueCount)
    (ha : amount < cfg.minFreeze) :
    retract_bid cfg s who amount duration = .error .AmountTooSmall := by
  have h0 : ¬ duration = 0 := by omega
  have h1 : ¬ cfg.queueCount < duration := by omega
  simp [retract_bid, h0, h1, ha]

/-- Instantiation of C10 on a residual bid actually produced by a split:
under cfgR (minimum freeze 70) a bid of 100 is placed, `enlarge` with
budget 40 consumes 40 and leaves a residual bid of 60 in the bucket, and
retracting that residual fails AmountTooSmall. -/
theorem C10_witness :
    (0 < 1 ∧ 1 ≤ cfgR.queueCount ∧ 60 < cfgR.minFreeze ∧
     place_bid cfgR (initState cfgR) 1 100 1 = .ok sR1 ∧
     enlarge cfgR sR1 1000 0 40 10 = (sR2, 1) ∧
     getQueue sR2.queues 0 = [⟨60, 1⟩]) ∧
    retract_bid cfgR sR2 1 60 1 = .error .AmountTooSmall :=
  ⟨⟨by decide, by decide, by decide, rfl, by decide, rfl⟩,
   C10_subminimum_unretractable cfgR sR2 1 60 1 (by decide) (by decide) (by decide)⟩

end Gilt
